import Mathlib

/-!
Verification of the core of the `lizzy` media-session reporter.

The Rust sources are shallowly embedded: strings become `List Char`,
the D-Bus connection becomes an explicit oracle (`Bus`) recording the
replies of the synchronous calls the code makes, and each event handler
becomes a pure function from the oracle and the incoming message to the
trace of externally visible effects (bar writes, refresh signals,
Play/Pause commands).  The repository carries two revisions of the event
loop: the older self-contained `main.rs` (namespace `MainRs`) and the
newer `message.rs`/`media.rs` modules (namespaces `Msg` and `MediaRs`);
both are embedded because the claims cite both.
-/

/-- Rust `&str`/`String`, modelled as its sequence of characters. -/
abbrev Str := List Char

/-- Rust `str::starts_with` with a `&str` pattern. -/
def isPrefixOfStr : Str → Str → Bool
  | [], _ => true
  | _ :: _, [] => false
  | a :: as, b :: bs => (a == b) && isPrefixOfStr as bs

/-- Rust `str::ends_with` with a `&str` pattern. -/
def isSuffixOfStr (pat s : Str) : Bool := isPrefixOfStr pat.reverse s.reverse

/-- Substring containment, Rust `str::contains` with a `&str` pattern. -/
def containsStr (s pat : Str) : Bool :=
  match s with
  | [] => pat.isEmpty
  | _ :: rest => isPrefixOfStr pat s || containsStr rest pat

/-- Rust `str::to_lowercase` (per-character lowering). -/
def toLowerStr (s : Str) : Str := s.map Char.toLower

/-- One step bound for `trim_start_matches`: each strip removes at least one
character, so `s.length` iterations always suffice. -/
def trimStartAux : Nat → Str → Str → Str
  | 0, _, s => s
  | n + 1, pat, s =>
      if (!pat.isEmpty) && isPrefixOfStr pat s then trimStartAux n pat (s.drop pat.length)
      else s

/-- Rust `str::trim_start_matches`: repeatedly strips the pattern from the
front while it is a prefix. -/
def trimStart (pat s : Str) : Str := trimStartAux s.length pat s

/-- Rust `str::split(char)`: splits at every occurrence, keeping empty pieces. -/
def splitOnChar (c : Char) : Str → List Str
  | [] => [[]]
  | x :: rest =>
      if x = c then [] :: splitOnChar c rest
      else
        match splitOnChar c rest with
        | h :: t => (x :: h) :: t
        | [] => [[x]]

/-- Fuel-bounded body of `replaceAll`; fuel `s.length` suffices because every
step consumes at least one character of `s`. -/
def replaceAllAux : Nat → Str → Str → Str → Str
  | 0, s, _, _ => s
  | fuel + 1, s, pat, repl =>
      match s with
      | [] => []
      | c :: rest =>
          if (!pat.isEmpty) && isPrefixOfStr pat s then
            repl ++ replaceAllAux fuel (s.drop pat.length) pat repl
          else c :: replaceAllAux fuel rest pat repl

/-- Rust `str::replace` for a non-empty pattern: replaces every
left-to-right non-overlapping occurrence. -/
def replaceAll (s pat repl : Str) : Str := replaceAllAux s.length s pat repl

/-- Rust `str::trim_end` (drops trailing whitespace). -/
def trimEndStr (s : Str) : Str := (s.reverse.dropWhile Char.isWhitespace).reverse

/-- A value inside the nested MPRIS metadata property map, as far as the code
inspects it: `prop_cast::<String>` succeeds only on `vStr`,
`prop_cast::<Vec<String>>` only on `vStrList`. -/
inductive MetaVal
  | vStr : Str → MetaVal
  | vStrList : List Str → MetaVal
  | vOther : MetaVal
deriving DecidableEq

/-- The nested property map carried under the `Metadata` key. -/
abbrev PropMapM := List (Str × MetaVal)

/-- First value stored under a key of an association list (the maps are
`HashMap`s in the source, so keys are unique). -/
def lookupProp {α : Type} : List (Str × α) → Str → Option α
  | [], _ => none
  | (k, v) :: rest, key => if k = key then some v else lookupProp rest key

/-- `arg::prop_cast::<String>(map, key)`. -/
def propCastStr (m : PropMapM) (key : Str) : Option Str :=
  match lookupProp m key with
  | some (.vStr s) => some s
  | _ => none

/-- `arg::prop_cast::<Vec<String>>(map, key)`. -/
def propCastStrList (m : PropMapM) (key : Str) : Option (List Str) :=
  match lookupProp m key with
  | some (.vStrList l) => some l
  | _ => none

/-- A value of the outer `PropertiesChanged` map: `pMap` is a value that
`arg::cast::<PropMap>` accepts, `pStr` one whose `as_str()` is `Some`. -/
inductive PropVal
  | pMap : PropMapM → PropVal
  | pStr : Str → PropVal
  | pOther : PropVal
deriving DecidableEq

/-- An incoming `PropertiesChanged` signal: its sender (if any) and the result
of `msg.read2::<String, PropMap>()` (`none` models a body that does not read
as that shape). -/
structure DBusMsg where
  sender : Option Str
  body2 : Option (Str × List (Str × PropVal))

/-- Body of a `NameOwnerChanged` signal: three strings read in sequence, or a
read failure. -/
abbrev NOMsg := Option (Str × Str × Str)

/-- `NameOwnerChanged`, defined identically in `message.rs` and `main.rs`. -/
structure NameOwnerChanged where
  name : Str
  old_name : Str
  new_name : Str
deriving DecidableEq

/-- Oracle for the synchronous D-Bus calls the code performs.  For each call,
`none` models `send_with_reply_and_block` returning `Err`; read failures of a
successful reply are folded into the value exactly as the code folds them
(`unwrap_or_default` / `unwrap_or_else`). -/
structure Bus where
  /-- Reply to `Properties.Get("PlaybackStatus")` on the given owner token:
  the string produced after `read1().unwrap_or_else(|_| Variant(String::new()))`. -/
  pbReply : Str → Option Str
  /-- Reply to `Properties.Get("Metadata")`: `some none` models a reply whose
  `read1::<Variant<PropMap>>()` fails, `some (some m)` a decoded map. -/
  mdReply : Str → Option (Option PropMapM)
  /-- Whether a `Properties.Get` for any other property gets a reply. -/
  otherPropOk : Str → Str → Bool
  /-- Reply to `ListNames` after `read1().unwrap_or_default()`. -/
  listNamesReply : Option (List Str)
  /-- Reply to `GetNameOwner(name)` after `read1().unwrap_or_default()`. -/
  ownerOf : Str → Option Str

/-- The MPRIS well-known-name namespace `"org.mpris.MediaPlayer2."`. -/
def mprisPre : Str := "org.mpris.MediaPlayer2.".data

/-- `options.rs`: `Arguments` — the configuration parsed once at startup. -/
structure Arguments where
  length : Nat
  signal : Nat
  playing : Str
  paused : Str
  separator : Str
  order : Str
  textcolor : Str
  playbackcolor : Str
  mediaplayer : Str
  autotoggle : Bool

/-- `options.rs`: the defaults `parse_args` applies when no flag is given. -/
def defaultArguments : Arguments :=
  { length := 45, signal := 8, playing := "Playing: ".data, paused := "Paused: ".data,
    separator := " - ".data, order := "artist,title".data, textcolor := [],
    playbackcolor := [], mediaplayer := [], autotoggle := false }

namespace Msg

/-- `message.rs`: `matches_pattern` — the glob check of the identity matcher,
arm for arm.  Byte positions in the Rust slices coincide with character
positions because the sliced-off characters are the ASCII `*`. -/
def matches_pattern (mediaplayer sender : Str) : Bool :=
  if '*' ∈ mediaplayer then
    if mediaplayer.head? = some '*' ∧ mediaplayer.getLast? = some '*' ∧ 2 < mediaplayer.length then
      containsStr sender ((mediaplayer.drop 1).dropLast)
    else if mediaplayer.getLast? = some '*' then
      isPrefixOfStr mediaplayer.dropLast sender
    else if mediaplayer.head? = some '*' then
      isSuffixOfStr (mediaplayer.drop 1) sender
    else false
  else mediaplayer == sender

/-- `message.rs`: the error taxonomy `MessageError`. -/
inductive MessageError
  | Parsing
  | GetProperty
  | MessageCreation
  | MethodCall
deriving DecidableEq

/-- `message.rs`: `Contents` — what a `PropertiesChanged` payload carried. -/
inductive Contents
  | playbackStatus : Str → Contents
  | metadata : List Str → Str → Contents
deriving DecidableEq

/-- `message.rs`: `Media` — the completed session handed to the bar output. -/
structure Media where
  artist : Str
  title : Str
  playbackstatus : Str
deriving DecidableEq

/-- `message.rs`: `read_nameowner` — reads the three string arguments, failing
if the body does not have that shape. -/
def read_nameowner (msg : NOMsg) : Option NameOwnerChanged :=
  msg.map fun t => ⟨t.1, t.2.1, t.2.2⟩

/-- `message.rs`: `parse_message`.  The first key of the map dispatches;
since the source map is a `HashMap` the value indexed by that key is the
value stored with it. -/
def parse_message (msg : DBusMsg) : Except MessageError Contents :=
  match msg.body2 with
  | some (_, map) =>
      match map.head? with
      | some (k, v) =>
          if k = "Metadata".data then
            match v with
            | .pMap property_map =>
                match propCastStr property_map ("xesam:title".data),
                      propCastStrList property_map ("xesam:artist".data) with
                | some title, some artist => .ok (.metadata artist title)
                | _, _ => .error .Parsing
            | _ => .error .Parsing
          else if k = "PlaybackStatus".data then
            match v with
            | .pStr playbackstatus => .ok (.playbackStatus playbackstatus)
            | _ => .error .Parsing
          else .error .Parsing
      | none => .error .Parsing
  | none => .error .Parsing

/-- `message.rs`: `get_property` — one synchronous `Properties.Get` call
against the given owner token, with the reply decoded as the code decodes it
(missing artist list or title default to empty rather than failing). -/
def get_property (bus : Bus) (busname : Option Str) (property : Str) :
    Except MessageError Contents :=
  match busname with
  | none => .error .MessageCreation
  | some mediaplayer =>
      if property = "PlaybackStatus".data then
        match bus.pbReply mediaplayer with
        | some s => .ok (.playbackStatus s)
        | none => .error .MethodCall
      else if property = "Metadata".data then
        match bus.mdReply mediaplayer with
        | some (some properties) =>
            .ok (.metadata ((propCastStrList properties ("xesam:artist".data)).getD [])
                           ((propCastStr properties ("xesam:title".data)).getD []))
        | some none => .error .GetProperty
        | none => .error .MethodCall
      else
        if bus.otherPropOk mediaplayer property then .error .GetProperty
        else .error .MethodCall

/-- Loop body of `query_id`: first advertised name matching the selector whose
`GetNameOwner` lookup succeeds wins; a failed lookup moves on. -/
def query_loop (bus : Bus) (mediaplayer : Str) : List Str → Except MessageError Str
  | [] => .error .MethodCall
  | name :: rest =>
      if matches_pattern mediaplayer name then
        match bus.ownerOf (mprisPre ++ name) with
        | some id => .ok id
        | none => query_loop bus mediaplayer rest
      else query_loop bus mediaplayer rest

/-- `message.rs`: `query_id` — enumerate advertised names, keep those under
the MPRIS namespace stripped of it, and resolve the first match. -/
def query_id (bus : Bus) (mediaplayer : Str) : Except MessageError Str :=
  match bus.listNamesReply with
  | none => .error .MethodCall
  | some names =>
      query_loop bus mediaplayer
        ((names.filter fun n => isPrefixOfStr mprisPre n).map fun n => trimStart mprisPre n)

/-- `message.rs`: `is_mediaplayer` — an empty selector accepts every sender
before any bus call is made. -/
def is_mediaplayer (bus : Bus) (msg : DBusMsg) (mediaplayer : Str) : Bool :=
  if mediaplayer = [] then true
  else
    let sender_id := msg.sender.getD []
    match query_id bus mediaplayer with
    | .ok mediaplayer_id => sender_id == mediaplayer_id
    | .error _ => false

/-- `message.rs`: `should_toggle_playback`. -/
def should_toggle_playback (bus : Bus) (properties_opts : Arguments) : Bool :=
  properties_opts.autotoggle &&
    (match query_id bus properties_opts.mediaplayer with
     | .ok _ => true
     | .error _ => false)

/-- A Play/Pause command issued through `toggle_playback` (the spec's
fire-and-forget `send_command`; a failed acknowledgment is only logged). -/
structure Command where
  target : Str
  cmd : Str
deriving DecidableEq

/-- `message.rs`: `toggle_playback_if_needed` — resolve the foreign event's
playback state (completing a metadata-only event with a `PlaybackStatus`
read), resolve the tracked owner, then send exactly one command to it.
Returns the trace of commands issued. -/
def toggle_playback_if_needed (bus : Bus) (msg : DBusMsg) (properties_opts : Arguments) :
    List Command :=
  let status? : Option Str :=
    match parse_message msg with
    | .ok (.playbackStatus status) => some status
    | .ok (.metadata _ _) =>
        match get_property bus msg.sender ("PlaybackStatus".data) with
        | .ok (.playbackStatus status) => some status
        | _ => none
    | .error _ => none
  match status? with
  | none => []
  | some status =>
      match query_id bus properties_opts.mediaplayer with
      | .error _ => []
      | .ok tracked =>
          if status = "Playing".data then [⟨tracked, "Pause".data⟩]
          else [⟨tracked, "Play".data⟩]

/-- One `get_property` call issued while handling a tracked-player signal. -/
structure ReadReq where
  target : Option Str
  property : Str
deriving DecidableEq

/-- `message.rs`: `handle_valid_mediaplayer_signal` — completes the partial
payload with one synchronous read for the missing half and hands the
combined `Media` to the bar output.  Returns the reads issued and the
session emitted (`none` when the handler returns early). -/
def handle_valid_mediaplayer_signal (bus : Bus) (msg : DBusMsg) :
    List ReadReq × Option Media :=
  match parse_message msg with
  | .ok (.metadata artist title) =>
      ([⟨msg.sender, "PlaybackStatus".data⟩],
       match get_property bus msg.sender ("PlaybackStatus".data) with
       | .ok (.playbackStatus playbackstatus) =>
           some ⟨(artist.head?.getD []), title, playbackstatus⟩
       | _ => none)
  | .ok (.playbackStatus playbackstatus) =>
      ([⟨msg.sender, "Metadata".data⟩],
       match get_property bus msg.sender ("Metadata".data) with
       | .ok (.metadata artist title) =>
           some ⟨(artist.head?.getD []), title, playbackstatus⟩
       | _ => none)
  | .error _ => ([], none)

end Msg

namespace MediaRs

/-- `media.rs`: `Media` — the session record with still-optional fields. -/
structure Media where
  artist : Option Str
  title : Option Str
  playbackstatus : Option Str
deriving DecidableEq

/-- The JSON object `Media::send` prints for Waybar. -/
structure WaybarJson where
  text : Str
  alt : Str
  cls : Str
deriving DecidableEq

/-- `media.rs`: `Media::send` — formats and emits the session, but only when
every field is `Some`; a partial session produces no output at all. -/
def Media.send (m : Media) (output_format : Str) : Option WaybarJson :=
  match m with
  | ⟨some artist, some title, some playbackstatus⟩ =>
      let now_playing :=
        replaceAll (replaceAll output_format ("\x7b\x7bartist\x7d\x7d".data) artist)
          ("\x7b\x7btitle\x7d\x7d".data) title
      some ⟨now_playing, playbackstatus, playbackstatus⟩
  | _ => none

end MediaRs

namespace MainRs

/-- `main.rs`: `Contents` — the older payload type with optional parts. -/
inductive Contents
  | playbackStatus : Option Str → Contents
  | metadata : Option (List Str) → Option Str → Contents
deriving DecidableEq

/-- Result of `main.rs`'s `parse_message`: `found`/`noMatch` model
`Some`/`None`, and `aborted` models the `Err` arm, which logs and then
calls `panic!("Aborting.")`, killing the process. -/
inductive ParseResult
  | found : Contents → ParseResult
  | noMatch : ParseResult
  | aborted : ParseResult
deriving DecidableEq

/-- `main.rs`: `Song`. -/
structure Song where
  artist : Option Str
  title : Option Str
  playbackstatus : Str
deriving DecidableEq

/-- `main.rs`: `Output`. -/
structure Output where
  now_playing : Str
  playbackstatus : Str
deriving DecidableEq

/-- `main.rs`: `parse_message` — like the `message.rs` version but wrapping
the metadata fields in `Option`s, and aborting the process when the body
does not read as `(String, PropMap)`. -/
def parse_message (msg : DBusMsg) : ParseResult :=
  match msg.body2 with
  | none => .aborted
  | some (_, map) =>
      match map.head? with
      | none => .noMatch
      | some (k, v) =>
          if k = "Metadata".data then
            match v with
            | .pMap property_map =>
                .found (.metadata (propCastStrList property_map ("xesam:artist".data))
                                  (propCastStr property_map ("xesam:title".data)))
            | _ => .noMatch
          else if k = "PlaybackStatus".data then
            match v with
            | .pStr playbackstatus => .found (.playbackStatus (some playbackstatus))
            | _ => .noMatch
          else .noMatch

/-- `main.rs`: `get_property` — returns the pair the function returns:
`(Some status, None)` for `PlaybackStatus`, `(first artist, title)` for
`Metadata`, `(None, None)` on every failure. -/
def get_property (bus : Bus) (busname : Option Str) (property : Str) :
    Option Str × Option Str :=
  match busname with
  | none => (none, none)
  | some mediaplayer =>
      if property = "PlaybackStatus".data then
        match bus.pbReply mediaplayer with
        | some s => (some s, none)
        | none => (none, none)
      else if property = "Metadata".data then
        match bus.mdReply mediaplayer with
        | some (some properties) =>
            (((propCastStrList properties ("xesam:artist".data)).getD []).head?,
             propCastStr properties ("xesam:title".data))
        | some none => (none, none)
        | none => (none, none)
      else (none, none)

/-- `main.rs`: `query_id` — a single `GetNameOwner` lookup of the selector
under the MPRIS namespace (no enumeration, no glob matching). -/
def query_id (bus : Bus) (mediaplayer : Str) : Option Str :=
  bus.ownerOf (mprisPre ++ mediaplayer)

/-- `main.rs`: `is_mediaplayer`. -/
def is_mediaplayer (bus : Bus) (msg : DBusMsg) (mediaplayer : Str) : Bool :=
  if mediaplayer = [] then true
  else
    let sender_id := msg.sender.getD []
    match query_id bus mediaplayer with
    | some mediaplayer_id => sender_id == mediaplayer_id
    | none => false

/-- `main.rs`: `read_nameowner`. -/
def read_nameowner (msg : NOMsg) : Option NameOwnerChanged :=
  msg.map fun t => ⟨t.1, t.2.1, t.2.2⟩

/-- Index-ordered filling of `order_set` in `Output::new`; writing an
`"artist"`/`"title"` component at index ≥ 2 is the `order_set[i]` panic. -/
def orderSetAux (song : Song) : List Str → Nat → Option Str × Option Str →
    Option (Option Str × Option Str)
  | [], _, acc => some acc
  | s :: rest, i, (a, b) =>
      if s = "artist".data then
        match i with
        | 0 => orderSetAux song rest 1 (song.artist, b)
        | 1 => orderSetAux song rest 2 (a, song.artist)
        | _ => none
      else if s = "title".data then
        match i with
        | 0 => orderSetAux song rest 1 (song.title, b)
        | 1 => orderSetAux song rest 2 (a, song.title)
        | _ => none
      else orderSetAux song rest (i + 1) (a, b)

/-- `main.rs`: `Output::new` — `none` models the two `expect` panics (a slot
of the order left unfilled) and the out-of-bounds write. -/
def Output.new (song : Song) (order separator : Str) : Option Output :=
  match orderSetAux song (splitOnChar ',' order) 0 (none, none) with
  | none => none
  | some (some x, some y) => some ⟨x ++ separator ++ y, song.playbackstatus⟩
  | some _ => none

/-- The mojibake ellipsis literal appearing in `main.rs`'s `shorten`. -/
def ellipsis : Str := "â€¦".data

/-- `main.rs`: `Output::shorten`. -/
def Output.shorten (o : Output) (length : Nat) : Output :=
  if length < o.now_playing.length then
    let t := trimEndStr (o.now_playing.take length) ++ ellipsis
    let t := if '(' ∈ t ∧ ')' ∉ t then t ++ [')'] else t
    { o with now_playing := t }
  else o

/-- `main.rs`: `Output::set_status`. -/
def Output.set_status (o : Output) (playing paused : Str) : Output :=
  if o.playbackstatus = "Playing".data then { o with playbackstatus := playing }
  else if o.playbackstatus = "Paused".data then { o with playbackstatus := paused }
  else o

/-- `main.rs`: `Output::escape_ampersand`. -/
def Output.escape_ampersand (o : Output) : Output :=
  { o with now_playing := replaceAll o.now_playing ("&".data) ("&amp;".data) }

/-- `main.rs`: `Output::colorize`. -/
def Output.colorize (o : Output) (textcolor playbackcolor : Str) : Output :=
  let o := if textcolor ≠ [] then
      { o with now_playing :=
          "<span foreground='".data ++ textcolor ++ "'>".data ++ o.now_playing ++
            "</span>".data }
    else o
  if playbackcolor ≠ [] then
    { o with playbackstatus :=
        "<span foreground='".data ++ playbackcolor ++ "'>".data ++ o.playbackstatus ++
          "</span>".data }
  else o

/-- An externally visible effect of the `main.rs` event loop. -/
inductive Action
  | write : Str → Action
  | updateSignal : Nat → Action
  | command : Str → Str → Action
deriving DecidableEq

/-- `true` exactly on Play/Pause commands. -/
def Action.isCommand : Action → Bool
  | .command _ _ => true
  | _ => false

/-- Outcome of one callback invocation: the actions performed, with `fatal`
marking that a panic aborted the process (after the listed actions). -/
inductive HandlerOutcome
  | ok : List Action → HandlerOutcome
  | fatal : List Action → HandlerOutcome
deriving DecidableEq

/-- The actions a handler invocation performed before returning or aborting. -/
def HandlerOutcome.actions : HandlerOutcome → List Action
  | .ok as => as
  | .fatal as => as

/-- Formatting-and-emission tail of the tracked branch of the
`properties_rule` closure: build the `Output`, customize it, write it out and
signal Waybar. -/
def emit_song (opts : Arguments) (song : Song) : HandlerOutcome :=
  match Output.new song opts.order opts.separator with
  | none => .fatal []
  | some output =>
      let output := ((output.shorten opts.length).escape_ampersand.set_status
          opts.playing opts.paused).colorize opts.textcolor opts.playbackcolor
      .ok [.write (output.playbackstatus ++ output.now_playing),
           .updateSignal opts.signal]

/-- `main.rs`: the `properties_rule` closure — the reconciliation step for
one `PropertiesChanged` signal.  The tracked branch completes and emits; the
foreign branch toggles playback of the tracked player.  Note that the foreign
branch never consults `opts.autotoggle`. -/
def properties_handler (bus : Bus) (opts : Arguments) (msg : DBusMsg) : HandlerOutcome :=
  if is_mediaplayer bus msg opts.mediaplayer then
    match parse_message msg with
    | .found (.metadata artist title) =>
        emit_song opts
          ⟨((artist.getD []).head?), title,
           ((get_property bus msg.sender ("PlaybackStatus".data)).fst.getD [])⟩
    | .found (.playbackStatus status) =>
        let metadata := get_property bus msg.sender ("Metadata".data)
        emit_song opts ⟨metadata.fst, metadata.snd, status.getD []⟩
    | .noMatch => .ok []
    | .aborted => .fatal []
  else
    match query_id bus opts.mediaplayer with
    | some mediaplayer =>
        match parse_message msg with
        | .found (.playbackStatus status) =>
            let status := status.getD []
            if status = "Playing".data then
              .ok [.command mediaplayer ("Pause".data)]
            else if status = "Paused".data ∨ status = "Stopped".data ∨ status = [] then
              .ok [.command mediaplayer ("Play".data)]
            else .ok []
        | .found (.metadata _ _) => .ok []
        | .noMatch => .ok []
        | .aborted => .fatal []
    | none => .ok []

/-- `main.rs`: the `nameowner_rule` closure — clears the bar when the tracked
player's name is vacated, and deliberately does nothing when the selector is
empty. -/
def nameowner_handler (opts : Arguments) (msg : NOMsg) : List Action :=
  if opts.mediaplayer = [] then []
  else
    match read_nameowner msg with
    | some nameowner =>
        if containsStr (toLowerStr nameowner.name) opts.mediaplayer ∧
            nameowner.new_name = [] then
          [.write [], .updateSignal opts.signal]
        else []
    | none => []

end MainRs

/-! Concrete fixtures used by the closed theorems and the witnesses. -/

/-- A bus on which every synchronous call fails. -/
def busNull : Bus :=
  { pbReply := fun _ => none, mdReply := fun _ => none, otherPropOk := fun _ _ => false,
    listNamesReply := none, ownerOf := fun _ => none }

/-- A `PropertiesChanged` message whose body does not read as
`(String, PropMap)`. -/
def msgMalformed : DBusMsg := ⟨some (":1.5".data), none⟩

/-- A bus where Spotify is the only MPRIS name, owned by `:1.10`. -/
def busSpotify : Bus :=
  { pbReply := fun _ => none, mdReply := fun _ => none, otherPropOk := fun _ _ => false,
    listNamesReply := some ["org.mpris.MediaPlayer2.spotify".data],
    ownerOf := fun n =>
      if n = "org.mpris.MediaPlayer2.spotify".data then some (":1.10".data) else none }

/-- Selector `spotify` with autotoggle enabled. -/
def optsSpotifyToggle : Arguments :=
  { defaultArguments with mediaplayer := "spotify".data, autotoggle := true }

/-- Selector `spotify` with autotoggle left disabled (the default). -/
def optsSpotify : Arguments :=
  { defaultArguments with mediaplayer := "spotify".data }

/-- A `PropertiesChanged` signal from the foreign sender `:1.99` carrying
`PlaybackStatus = "Playing"`. -/
def msgForeignPlaying : DBusMsg :=
  ⟨some (":1.99".data),
   some ("org.mpris.MediaPlayer2.Player".data,
         [("PlaybackStatus".data, .pStr ("Playing".data))])⟩

/-- A `NameOwnerChanged` body: the Spotify name vacated (`new_name` empty). -/
def nomsgSpotifyExit : NOMsg :=
  some ("org.mpris.MediaPlayer2.spotify".data, ":1.10".data, [])

/-- Selector `fire*`, the spec's own glob example, autotoggle left off. -/
def optsFirefoxGlob : Arguments :=
  { defaultArguments with mediaplayer := "fire*".data }

/-- A `NameOwnerChanged` body: the Firefox name vacated (`new_name` empty). -/
def nomsgFirefoxExit : NOMsg :=
  some ("org.mpris.MediaPlayer2.firefox".data, ":1.20".data, [])

/-- A bus whose `PlaybackStatus` read on `:1.50` answers `"Playing"`. -/
def busPlaying : Bus :=
  { pbReply := fun o => if o = ":1.50".data then some ("Playing".data) else none,
    mdReply := fun _ => none, otherPropOk := fun _ _ => false,
    listNamesReply := none, ownerOf := fun _ => none }

/-- A Metadata-only signal from `:1.50` with one artist and a title. -/
def msgMetadataOnly : DBusMsg :=
  ⟨some (":1.50".data),
   some ("org.mpris.MediaPlayer2.Player".data,
         [("Metadata".data,
           .pMap [("xesam:title".data, .vStr ("Roygbiv".data)),
                  ("xesam:artist".data, .vStrList ["Boards of Canada".data])])])⟩

/-- A metadata property map with two artists and a title. -/
def propsTwoArtists : PropMapM :=
  [("xesam:title".data, .vStr ("Roygbiv".data)),
   ("xesam:artist".data, .vStrList ["Boards of Canada".data, "Other Artist".data])]

/-- A bus whose `Metadata` read on `:1.50` answers `propsTwoArtists`. -/
def busTwoArtists : Bus :=
  { pbReply := fun _ => none,
    mdReply := fun o => if o = ":1.50".data then some (some propsTwoArtists) else none,
    otherPropOk := fun _ _ => false, listNamesReply := none, ownerOf := fun _ => none }

/-- A PlaybackStatus-only signal from `:1.50`. -/
def msgStatusOnly : DBusMsg :=
  ⟨some (":1.50".data),
   some ("org.mpris.MediaPlayer2.Player".data,
         [("PlaybackStatus".data, .pStr ("Playing".data))])⟩

/-- A signal whose map's first key is neither `Metadata` nor `PlaybackStatus`. -/
def msgUnknownKey : DBusMsg :=
  ⟨some (":1.50".data),
   some ("org.mpris.MediaPlayer2.Player".data,
         [("Volume".data, .pStr ("0.5".data))])⟩

/-- A complete session for the `media.rs` formatter. -/
def mediaComplete : MediaRs.Media :=
  ⟨some ("A".data), some ("T".data), some ("Playing".data)⟩

/-- The default lizzy output format `\x7b\x7bartist\x7d\x7d - \x7b\x7btitle\x7d\x7d`. -/
def fmtDefault : Str := "\x7b\x7bartist\x7d\x7d - \x7b\x7btitle\x7d\x7d".data


/-! ## Claims -/

/-- C1 as written is false on the code: the empty pattern does not match a
non-empty candidate (plain equality is used), and the bare pattern `*` is
caught by the trailing-wildcard arm with an empty prefix, so it matches every
candidate. -/
theorem c1_counterexample :
    Msg.matches_pattern [] ("x".data) = false ∧
    Msg.matches_pattern ('*' :: []) ("x".data) = true := by
  decide

/-- C1 (amended): `matches_pattern` compares the empty pattern by plain
equality (the empty-selector "match everything" rule lives in
`is_mediaplayer`, not here); a bare `*` matches every candidate; `abc*`
matches exactly the candidates starting with `abc`; `*abc*` exactly those
containing `abc`; `*abc` exactly those ending with `abc`; and a pattern
whose wildcards are only embedded (neither leading nor trailing) matches no
candidate. -/
theorem c1_matches_pattern_characterization :
    (∀ n : Str, Msg.matches_pattern [] n = (([] : Str) == n)) ∧
    (∀ n : Str, Msg.matches_pattern ('*' :: []) n = true) ∧
    (∀ n : Str, Msg.matches_pattern ("abc*".data) n = isPrefixOfStr ("abc".data) n) ∧
    (∀ n : Str, Msg.matches_pattern ("*abc*".data) n = containsStr n ("abc".data)) ∧
    (∀ n : Str, Msg.matches_pattern ("*abc".data) n = isSuffixOfStr ("abc".data) n) ∧
    (∀ p n : Str, '*' ∈ p → p.head? ≠ some '*' → p.getLast? ≠ some '*' →
      Msg.matches_pattern p n = false) := by
  refine ⟨fun n => rfl, fun n => rfl, fun n => rfl, fun n => rfl, fun n => rfl, ?_⟩
  intro p n hmem hhead hlast
  simp [Msg.matches_pattern, hmem, hhead, hlast]

/-- Witness for C1 (amended) at the embedded-wildcard pattern `a*b`. -/
theorem c1_matches_pattern_characterization_witness :
    ('*' ∈ ("a*b".data) ∧ ("a*b".data).head? ≠ some '*' ∧
      ("a*b".data).getLast? ≠ some '*') ∧
    Msg.matches_pattern ("a*b".data) ("anything".data) = false :=
  ⟨by decide,
   c1_matches_pattern_characterization.2.2.2.2.2 ("a*b".data) ("anything".data)
     (by decide) (by decide) (by decide)⟩

/-- C2: a signal whose body does not read as `(String, PropMap)` drives the
`main.rs` property-change handler into `parse_message`'s `Err` arm, which
calls `panic!` and aborts the process — contradicting the spec's rule that
no error of the taxonomy is fatal.  The newer `message.rs` parser returns
`Err(Parsing)` for the same message instead. -/
theorem c2_malformed_body_aborts_process :
    MainRs.properties_handler busNull defaultArguments msgMalformed =
      .fatal [] ∧
    Msg.parse_message msgMalformed = .error .Parsing :=
  ⟨rfl, rfl⟩

/-- C3: with a resolvable tracked owner, a foreign `PropertyChange` whose
playback state resolves (directly, or through the completing
`PlaybackStatus` read for a metadata-only event) produces exactly one
command, addressed to the tracked owner: `Pause` when the foreign state is
`Playing`, `Play` for every other state; no command targets the foreign
sender. -/
theorem c3_autotoggle_arbitration (bus : Bus) (opts : Arguments) (msg : DBusMsg)
    (tracked status f : Str)
    (hq : Msg.query_id bus opts.mediaplayer = .ok tracked)
    (hs : msg.sender = some f) (hne : f ≠ tracked)
    (hstat : Msg.parse_message msg = .ok (.playbackStatus status) ∨
      ((∃ a t, Msg.parse_message msg = .ok (.metadata a t)) ∧
        bus.pbReply f = some status)) :
    Msg.toggle_playback_if_needed bus msg opts =
      [⟨tracked, if status = "Playing".data then "Pause".data else "Play".data⟩] ∧
    (Msg.toggle_playback_if_needed bus msg opts).filter
      (fun c => c.target == f) = [] := by
  have hmain : Msg.toggle_playback_if_needed bus msg opts =
      [⟨tracked, if status = "Playing".data then "Pause".data else "Play".data⟩] := by
    rcases hstat with h | ⟨⟨a, t, h⟩, hpb⟩
    · simp only [Msg.toggle_playback_if_needed, h, hq]
      by_cases hp : status = "Playing".data <;> simp [hp]
    · simp only [Msg.toggle_playback_if_needed, h, hq, Msg.get_property, hs, hpb]
      by_cases hp : status = "Playing".data <;> simp [hp]
  refine ⟨hmain, ?_⟩
  rw [hmain]
  have hbf : (tracked == f) = false := by
    simp only [beq_eq_false_iff_ne, ne_eq]
    exact fun h => hne h.symm
  simp [List.filter, hbf]

/-- Witness for C3: Spotify (`:1.10`) tracked, foreign sender `:1.99`
reports `Playing`, and exactly one `Pause` lands on `:1.10`. -/
theorem c3_autotoggle_arbitration_witness :
    Msg.query_id busSpotify optsSpotifyToggle.mediaplayer = .ok (":1.10".data) ∧
    msgForeignPlaying.sender = some (":1.99".data) ∧
    Msg.toggle_playback_if_needed busSpotify msgForeignPlaying optsSpotifyToggle =
      [⟨":1.10".data, "Pause".data⟩] := by
  refine ⟨rfl, rfl, ?_⟩
  have h := (c3_autotoggle_arbitration busSpotify optsSpotifyToggle msgForeignPlaying
    (":1.10".data) ("Playing".data) (":1.99".data) rfl rfl (by decide)
    (Or.inl rfl)).1
  simpa using h

/-- C4: the `main.rs` foreign-sender branch never consults the autotoggle
flag.  With autotoggle disabled (the default), a foreign `Playing` event
still sends a `Pause` command to the tracked owner — contradicting the
claimed no-op.  The other half of the claim holds: with no resolvable
owner the branch is a no-op; and the newer `should_toggle_playback` gate
would indeed refuse to toggle here. -/
theorem c4_foreign_toggle_ignores_autotoggle :
    optsSpotify.autotoggle = false ∧
    MainRs.properties_handler busSpotify optsSpotify msgForeignPlaying =
      .ok [.command (":1.10".data) ("Pause".data)] ∧
    MainRs.properties_handler busNull optsSpotify msgForeignPlaying = .ok [] ∧
    Msg.should_toggle_playback busSpotify optsSpotify = false :=
  ⟨rfl, rfl, rfl, rfl⟩

/-- C5 as written is false on the code: the name-owner closure does not use
the identity matcher's selector matching but an ad hoc lowercase substring
test.  For the non-empty glob selector `fire*`, the vacated advertised name
`org.mpris.MediaPlayer2.firefox` matches the selector per `matches_pattern`
(after namespace stripping) and `new_owner` is absent, yet the handler
emits zero clear outputs — not exactly one. -/
theorem c5_counterexample :
    optsFirefoxGlob.mediaplayer ≠ [] ∧
    Msg.matches_pattern optsFirefoxGlob.mediaplayer
      (trimStart mprisPre ("org.mpris.MediaPlayer2.firefox".data)) = true ∧
    MainRs.read_nameowner nomsgFirefoxExit =
      some ⟨"org.mpris.MediaPlayer2.firefox".data, ":1.20".data, []⟩ ∧
    MainRs.nameowner_handler optsFirefoxGlob nomsgFirefoxExit = [] :=
  ⟨by decide, by decide, rfl, rfl⟩

/-- C5 (amended): an `OwnershipChange` whose `new_name` is empty and whose
lowercased advertised name contains the non-empty selector as a substring —
the closure's own test, which is weaker than the identity matcher for glob
or case-sensitive selectors — emits exactly one clear: a single empty write
plus the refresh signal; under an empty selector the handler emits nothing
at all. -/
theorem c5_ownership_exit_clearing :
    (∀ (opts : Arguments) (msg : NOMsg) (no : NameOwnerChanged),
      opts.mediaplayer ≠ [] →
      MainRs.read_nameowner msg = some no →
      containsStr (toLowerStr no.name) opts.mediaplayer = true →
      no.new_name = [] →
      MainRs.nameowner_handler opts msg =
        [.write [], .updateSignal opts.signal]) ∧
    (∀ (opts : Arguments) (msg : NOMsg),
      opts.mediaplayer = [] → MainRs.nameowner_handler opts msg = []) := by
  constructor
  · intro opts msg no hne hrd hct hnew
    simp [MainRs.nameowner_handler, hne, hrd, hct, hnew]
  · intro opts msg he
    simp [MainRs.nameowner_handler, he]

/-- Witness for C5: Spotify's name is vacated while the selector is
`spotify`, and one clear write is emitted. -/
theorem c5_ownership_exit_clearing_witness :
    optsSpotify.mediaplayer ≠ [] ∧
    MainRs.read_nameowner nomsgSpotifyExit =
      some ⟨"org.mpris.MediaPlayer2.spotify".data, ":1.10".data, []⟩ ∧
    MainRs.nameowner_handler optsSpotify nomsgSpotifyExit =
      [.write [], .updateSignal 8] :=
  ⟨by decide, rfl,
   c5_ownership_exit_clearing.1 optsSpotify nomsgSpotifyExit
     ⟨"org.mpris.MediaPlayer2.spotify".data, ":1.10".data, []⟩
     (by decide) rfl (by decide) rfl⟩

/-- C6: a tracked-player signal carrying only one half of the session
triggers exactly one synchronous read for the missing half against the
sender, and the emitted session combines both halves: a metadata-only
event whose `PlaybackStatus` read answers `Playing` emits the given
artist/title with state `Playing` (the handler is a pure function of the
message and the bus replies, so repetition yields the same result). -/
theorem c6_completion_reads_missing_half :
    (∀ (bus : Bus) (msg : DBusMsg) (s : Str) (artist : List Str) (title : Str),
      msg.sender = some s →
      Msg.parse_message msg = .ok (.metadata artist title) →
      bus.pbReply s = some ("Playing".data) →
      Msg.handle_valid_mediaplayer_signal bus msg =
        ([⟨some s, "PlaybackStatus".data⟩],
         some ⟨artist.head?.getD [], title, "Playing".data⟩)) ∧
    (∀ (bus : Bus) (msg : DBusMsg) (s pb : Str),
      msg.sender = some s →
      Msg.parse_message msg = .ok (.playbackStatus pb) →
      (Msg.handle_valid_mediaplayer_signal bus msg).1 =
        [⟨some s, "Metadata".data⟩]) := by
  constructor
  · intro bus msg s artist title hs hp hpb
    simp [Msg.handle_valid_mediaplayer_signal, hp, Msg.get_property, hs, hpb]
  · intro bus msg s pb hs hp
    simp [Msg.handle_valid_mediaplayer_signal, hp, hs]

/-- Witness for C6: the metadata-only Spotify-style event from `:1.50`
completes with `Playing` and emits the combined session. -/
theorem c6_completion_reads_missing_half_witness :
    msgMetadataOnly.sender = some (":1.50".data) ∧
    Msg.parse_message msgMetadataOnly =
      .ok (.metadata ["Boards of Canada".data] ("Roygbiv".data)) ∧
    Msg.handle_valid_mediaplayer_signal busPlaying msgMetadataOnly =
      ([⟨some (":1.50".data), "PlaybackStatus".data⟩],
       some ⟨"Boards of Canada".data, "Roygbiv".data, "Playing".data⟩) := by
  refine ⟨rfl, rfl, ?_⟩
  have h := c6_completion_reads_missing_half.1 busPlaying msgMetadataOnly
    (":1.50".data) ["Boards of Canada".data] ("Roygbiv".data) rfl rfl rfl
  simpa using h

/-- C7: the `media.rs` formatter hand-off emits only complete sessions —
`Media::send` produces output exactly when artist, title and playback
state are all resolved, and is silent whenever any field is still
missing. -/
theorem c7_only_complete_sessions_emitted :
    (∀ (m : MediaRs.Media) (fmt : Str) (out : MediaRs.WaybarJson),
      MediaRs.Media.send m fmt = some out →
      m.artist.isSome ∧ m.title.isSome ∧ m.playbackstatus.isSome) ∧
    (∀ (m : MediaRs.Media) (fmt : Str),
      m.artist = none ∨ m.title = none ∨ m.playbackstatus = none →
      MediaRs.Media.send m fmt = none) := by
  constructor
  · rintro ⟨a, t, p⟩ fmt out h
    cases a <;> cases t <;> cases p <;> simp_all [MediaRs.Media.send]
  · rintro ⟨a, t, p⟩ fmt h
    cases a <;> cases t <;> cases p <;> simp_all [MediaRs.Media.send]

/-- Witness for C7: a complete session is emitted and its fields are all
resolved. -/
theorem c7_only_complete_sessions_emitted_witness :
    MediaRs.Media.send mediaComplete fmtDefault =
      some ⟨"A - T".data, "Playing".data, "Playing".data⟩ ∧
    (mediaComplete.artist.isSome ∧ mediaComplete.title.isSome ∧
      mediaComplete.playbackstatus.isSome) :=
  ⟨rfl,
   c7_only_complete_sessions_emitted.1 mediaComplete fmtDefault
     ⟨"A - T".data, "Playing".data, "Playing".data⟩ rfl⟩

/-- C8: a successfully decoded `Metadata` reply never fails completion for
missing fields — a missing artist list becomes the empty list and a
missing title the empty string — and when several artists are present only
the first reaches the emitted session. -/
theorem c8_metadata_extraction_tolerant :
    (∀ (bus : Bus) (mp : Str) (props : PropMapM),
      bus.mdReply mp = some (some props) →
      Msg.get_property bus (some mp) ("Metadata".data) =
        .ok (.metadata ((propCastStrList props ("xesam:artist".data)).getD [])
                       ((propCastStr props ("xesam:title".data)).getD []))) ∧
    (∀ (bus : Bus) (msg : DBusMsg) (s pb a1 : Str) (rest : List Str)
       (t : Str) (props : PropMapM),
      msg.sender = some s →
      Msg.parse_message msg = .ok (.playbackStatus pb) →
      bus.mdReply s = some (some props) →
      propCastStrList props ("xesam:artist".data) = some (a1 :: rest) →
      propCastStr props ("xesam:title".data) = some t →
      (Msg.handle_valid_mediaplayer_signal bus msg).2 = some ⟨a1, t, pb⟩) := by
  constructor
  · intro bus mp props h
    simp [Msg.get_property, h]
  · intro bus msg s pb a1 rest t props hs hp hmd ha ht
    simp [Msg.handle_valid_mediaplayer_signal, hp, Msg.get_property, hs, hmd, ha, ht]

/-- Witness for C8: a two-artist metadata reply completes a status-only
event with only the first artist. -/
theorem c8_metadata_extraction_tolerant_witness :
    busTwoArtists.mdReply (":1.50".data) = some (some propsTwoArtists) ∧
    propCastStrList propsTwoArtists ("xesam:artist".data) =
      some ["Boards of Canada".data, "Other Artist".data] ∧
    (Msg.handle_valid_mediaplayer_signal busTwoArtists msgStatusOnly).2 =
      some ⟨"Boards of Canada".data, "Roygbiv".data, "Playing".data⟩ :=
  ⟨rfl, rfl,
   c8_metadata_extraction_tolerant.2 busTwoArtists msgStatusOnly (":1.50".data)
     ("Playing".data) ("Boards of Canada".data) ["Other Artist".data]
     ("Roygbiv".data) propsTwoArtists rfl rfl rfl rfl rfl⟩

/-- The formatting-and-emission tail of the tracked branch only writes and
signals; it never issues a Play/Pause command. -/
theorem emit_song_no_commands (opts : Arguments) (song : MainRs.Song) :
    (MainRs.emit_song opts song).actions.filter MainRs.Action.isCommand = [] := by
  unfold MainRs.emit_song
  cases h : MainRs.Output.new song opts.order opts.separator <;>
    simp [MainRs.HandlerOutcome.actions, MainRs.Action.isCommand, List.filter]

/-- With the empty selector, `query_loop` matches a stripped name only if it
is empty, so over a list of non-empty names it resolves nothing. -/
theorem query_loop_empty_selector (bus : Bus) :
    ∀ l : List Str, (∀ m ∈ l, m ≠ []) →
      Msg.query_loop bus [] l = .error .MethodCall := by
  intro l
  induction l with
  | nil => intro _; rfl
  | cons x rest ih =>
      intro h
      have hx : x ≠ [] := h x (List.mem_cons_self x rest)
      have hm : Msg.matches_pattern [] x = false := by
        simp only [Msg.matches_pattern]
        rw [if_neg (by simp)]
        simp only [beq_eq_false_iff_ne, ne_eq]
        exact fun hh => hx hh.symm
      simp only [Msg.query_loop, hm, Bool.false_eq_true, if_false]
      exact ih fun m hmem => h m (List.mem_cons_of_mem x hmem)

/-- C9: with an empty selector the engine never issues a Play/Pause
command: `is_mediaplayer` accepts every sender whatever the bus answers
(so the foreign arbitration branch is unreachable and the tracked branch
only writes and signals), the name-owner handler does nothing, and —
provided every advertised MPRIS name is non-trivial once stripped — the
`message.rs` owner lookup resolves no player either. -/
theorem c9_empty_selector_never_commands :
    (∀ (bus : Bus) (opts : Arguments) (msg : DBusMsg) (nomsg : NOMsg),
      opts.mediaplayer = [] →
      (MainRs.properties_handler bus opts msg).actions.filter
        MainRs.Action.isCommand = [] ∧
      MainRs.nameowner_handler opts nomsg = [] ∧
      Msg.is_mediaplayer bus msg opts.mediaplayer = true) ∧
    (∀ (bus : Bus) (names : List Str),
      bus.listNamesReply = some names →
      (∀ m ∈ (names.filter fun n => isPrefixOfStr mprisPre n).map
          (fun n => trimStart mprisPre n), m ≠ []) →
      Msg.query_id bus [] = .error .MethodCall) := by
  constructor
  · intro bus opts msg nomsg he
    have him : MainRs.is_mediaplayer bus msg opts.mediaplayer = true := by
      rw [he]; rfl
    refine ⟨?_, ?_, ?_⟩
    · simp only [MainRs.properties_handler, him, if_true]
      cases hp : MainRs.parse_message msg with
      | found c =>
          cases c with
          | metadata a t => exact emit_song_no_commands ..
          | playbackStatus s => exact emit_song_no_commands ..
      | noMatch => simp [MainRs.HandlerOutcome.actions]
      | aborted => simp [MainRs.HandlerOutcome.actions]
    · simp [MainRs.nameowner_handler, he]
    · rw [he]; rfl
  · intro bus names hn hall
    simp only [Msg.query_id, hn]
    exact query_loop_empty_selector bus _ hall

/-- Witness for C9: under the default (empty) selector a foreign `Playing`
signal produces no command, the owner-change handler stays silent, every
sender is accepted, and on a bus advertising only Spotify the empty
selector resolves no owner. -/
theorem c9_empty_selector_never_commands_witness :
    defaultArguments.mediaplayer = [] ∧
    (MainRs.properties_handler busSpotify defaultArguments
        msgForeignPlaying).actions.filter MainRs.Action.isCommand = [] ∧
    MainRs.nameowner_handler defaultArguments nomsgSpotifyExit = [] ∧
    Msg.is_mediaplayer busSpotify msgForeignPlaying
      defaultArguments.mediaplayer = true ∧
    Msg.query_id busSpotify [] = .error .MethodCall := by
  have h := c9_empty_selector_never_commands.1 busSpotify defaultArguments
    msgForeignPlaying nomsgSpotifyExit rfl
  have h2 := c9_empty_selector_never_commands.2 busSpotify
    ["org.mpris.MediaPlayer2.spotify".data] rfl (by decide)
  exact ⟨rfl, h.1, h.2.1, h.2.2, h2⟩

/-- C10: a `PropertyChange` whose map decodes but whose first key is
neither `Metadata` nor `PlaybackStatus` (or whose map is empty) parses to
nothing, and every handler discards it: no write, no refresh signal, no
command, no emission. -/
theorem c10_unknown_key_discarded
    (bus : Bus) (opts : Arguments) (msg : DBusMsg) (iface : Str)
    (pmap : List (Str × PropVal))
    (hb : msg.body2 = some (iface, pmap))
    (hk : ∀ k v, pmap.head? = some (k, v) →
      k ≠ "Metadata".data ∧ k ≠ "PlaybackStatus".data) :
    MainRs.parse_message msg = .noMatch ∧
    Msg.parse_message msg = .error .Parsing ∧
    MainRs.properties_handler bus opts msg = .ok [] ∧
    Msg.handle_valid_mediaplayer_signal bus msg = ([], none) ∧
    Msg.toggle_playback_if_needed bus msg opts = [] := by
  have hpm : MainRs.parse_message msg = .noMatch := by
    simp only [MainRs.parse_message, hb]
    cases hh : pmap.head? with
    | none => rfl
    | some kv =>
        obtain ⟨k, v⟩ := kv
        obtain ⟨h1, h2⟩ := hk k v hh
        simp [h1, h2]
  have hme : Msg.parse_message msg = .error .Parsing := by
    simp only [Msg.parse_message, hb]
    cases hh : pmap.head? with
    | none => rfl
    | some kv =>
        obtain ⟨k, v⟩ := kv
        obtain ⟨h1, h2⟩ := hk k v hh
        simp [h1, h2]
  refine ⟨hpm, hme, ?_, ?_, ?_⟩
  · cases hib : MainRs.is_mediaplayer bus msg opts.mediaplayer with
    | true => simp [MainRs.properties_handler, hib, hpm]
    | false =>
        cases hq : MainRs.query_id bus opts.mediaplayer <;>
          simp [MainRs.properties_handler, hib, hq, hpm]
  · simp [Msg.handle_valid_mediaplayer_signal, hme]
  · simp [Msg.toggle_playback_if_needed, hme]

/-- Witness for C10: a `Volume`-keyed signal is discarded by every
handler, under the `spotify` selector on a bus where Spotify runs. -/
theorem c10_unknown_key_discarded_witness :
    msgUnknownKey.body2 =
      some ("org.mpris.MediaPlayer2.Player".data,
            [("Volume".data, .pStr ("0.5".data))]) ∧
    MainRs.properties_handler busSpotify optsSpotify msgUnknownKey = .ok [] ∧
    Msg.handle_valid_mediaplayer_signal busSpotify msgUnknownKey = ([], none) ∧
    Msg.toggle_playback_if_needed busSpotify msgUnknownKey optsSpotify = [] := by
  have h := c10_unknown_key_discarded busSpotify optsSpotify msgUnknownKey
    ("org.mpris.MediaPlayer2.Player".data)
    [("Volume".data, .pStr ("0.5".data))] rfl ?_
  · exact ⟨rfl, h.2.2.1, h.2.2.2.1, h.2.2.2.2⟩
  · intro k v hh
    simp only [List.head?_cons, Option.some.injEq, Prod.mk.injEq] at hh
    obtain ⟨rfl, rfl⟩ := hh
    exact ⟨by decide, by decide⟩
